import Mathlib

/-!
Shallow embedding of the peripheral-lifecycle core of the lpc82x HAL:
the DMA controller (src/src/dma/peripheral.rs) and the USART driver
(src/src/usart.rs). Hardware side effects (clock gating, register writes)
are made explicit as event traces produced by each operation, so that
ordering and frame properties can be stated; register state is a record
that event traces act on. The compile-time typestate parameter of the
Rust types is mirrored by an index on the Lean structures.
-/

/-- Typestate markers attached to every peripheral handle
(the crate's `init_state::Disabled` / `init_state::Enabled`). -/
inductive InitState where
  | Disabled
  | Enabled
  deriving DecidableEq

/-- Modelled from the spec: the statically allocated, hardware-aligned DMA
descriptor table (`super::descriptors::DESCRIPTORS`, whose source file is not
part of the given sources) lives at one fixed address for the whole process
lifetime; `DMA::new` computes this address once. The concrete value is
irrelevant to every claim. -/
def DESCRIPTORS_ADDR : Nat := 536870912

/-- Modelled from the spec: the number N of hardware DMA channels. The spec
leaves N abstract; no claim depends on the value. -/
def NUM_DMA_CHANNELS : Nat := 18

/-- Modelled from the spec: one per-channel handle of the Channel Set, bound
1:1 to a descriptor slot, carrying the same init state as the set
(`src/dma/channels` is not part of the given sources). -/
structure Channel where
  index : Nat
  state : InitState
  deriving DecidableEq

/-- Modelled from the spec: the Channel Set (`Channels<State>`), owning one
handle per hardware DMA channel, parameterized by the same typestate as the
DMA controller. -/
structure Channels (s : InitState) where
  channels : List Channel
  deriving DecidableEq

/-- Modelled from the spec: `Channels::new(descriptors)` produces N channel
handles, all initially Disabled. -/
def Channels.new (n : Nat) : Channels .Disabled :=
  ⟨(List.range n).map fun i => ⟨i, .Disabled⟩⟩

/-- Modelled from the spec: enabling the Channel Set cascades the transition
to every channel it owns. -/
def Channels.enable (c : Channels .Disabled) : Channels .Enabled :=
  ⟨c.channels.map fun ch => ⟨ch.index, .Enabled⟩⟩

/-- Modelled from the spec: disabling the Channel Set cascades the transition
to every channel it owns. -/
def Channels.disable (c : Channels .Enabled) : Channels .Disabled :=
  ⟨c.channels.map fun ch => ⟨ch.index, .Disabled⟩⟩

/-- Check that every channel of the set is in state `t`. -/
def Channels.allState {s : InitState} (c : Channels s) (t : InitState) : Bool :=
  c.channels.all fun ch => ch.state == t

/-- Hardware side effects performed by DMA controller operations, in program
order: clock gating through the syscon handle, the SRAMBASE (descriptor table
base) register write, and the CTRL master-enable register write. -/
inductive DmaEvent where
  | enableClock
  | writeSrambase (v : Nat)
  | writeCtrlEnable
  | disableClock
  deriving DecidableEq

/-- DMA-related hardware register state acted on by `DmaEvent` traces. -/
structure DmaRegs where
  clockOn : Bool
  srambase : Nat
  ctrlEnable : Bool
  deriving DecidableEq

/-- Effect of one DMA hardware event on the register state. -/
def DmaEvent.apply : DmaEvent → DmaRegs → DmaRegs
  | .enableClock, r => { r with clockOn := true }
  | .writeSrambase v, r => { r with srambase := v }
  | .writeCtrlEnable, r => { r with ctrlEnable := true }
  | .disableClock, r => { r with clockOn := false }

/-- Recognizer for writes to the descriptor-table-base register. -/
def DmaEvent.isSrambaseWrite : DmaEvent → Bool
  | .writeSrambase _ => true
  | _ => false

/-- Recognizer for the master-enable register write. -/
def DmaEvent.isCtrlEnableWrite : DmaEvent → Bool
  | .writeCtrlEnable => true
  | _ => false

/-- Run a trace of DMA hardware events left to right on register state. -/
def applyDmaEvents (es : List DmaEvent) (r : DmaRegs) : DmaRegs :=
  es.foldl (fun r e => e.apply r) r

/-- Values written to the descriptor-table-base register by a trace. -/
def srambaseWrites (es : List DmaEvent) : List Nat :=
  es.filterMap fun e =>
    match e with
    | .writeSrambase v => some v
    | _ => none

/-- Entry point to the DMA API (`struct DMA<State>` in
src/src/dma/peripheral.rs): the raw peripheral (modelled as an opaque numeric
token), the descriptor table base address computed at construction, and the
owned channel set carrying the same typestate. -/
structure DMA (s : InitState) where
  dma : Nat
  srambase : Nat
  channels : Channels s

/-- Translation of `DMA::new`: bind the descriptor table, record its address
once, and build the channel set in the Disabled state. -/
def DMA.new (dma : Nat) : DMA .Disabled :=
  { dma := dma
    srambase := DESCRIPTORS_ADDR
    channels := Channels.new NUM_DMA_CHANNELS }

/-- Translation of `DMA::enable` (defined on `DMA<Disabled>` only): enable
the clock, write the descriptor table address to SRAMBASE, write the CTRL
enable bit, and return the controller with the channel set enabled. The
second component is the hardware event trace in program order. -/
def DMA.enable (d : DMA .Disabled) : DMA .Enabled × List DmaEvent :=
  ({ dma := d.dma
     srambase := d.srambase
     channels := d.channels.enable },
   [.enableClock, .writeSrambase d.srambase, .writeCtrlEnable])

/-- Translation of `DMA::disable` (defined on `DMA<Enabled>` only): disable
the clock and return the controller with the channel set disabled. -/
def DMA.disable (d : DMA .Enabled) : DMA .Disabled × List DmaEvent :=
  ({ dma := d.dma
     srambase := d.srambase
     channels := d.channels.disable },
   [.disableClock])

/-- Translation of `DMA::free` (defined for every `State`): return the raw
peripheral stored at construction. -/
def DMA.free {s : InitState} (d : DMA s) : Nat :=
  d.dma

/-- Typestate of a DMA handle, read off its type index. -/
def DMA.stateOf {s : InitState} (_ : DMA s) : InitState :=
  s

/-- Ordering of event classes within a trace: every event satisfying `p`
occurs at a strictly smaller index than every event satisfying `q`. -/
def eventsPrecede {α : Type} (p q : α → Bool) (l : List α) : Prop :=
  ∀ i j : Fin l.length, p (l.get i) = true → q (l.get j) = true → i.val < j.val

/-- Hardware side effects performed by USART operations, in program order:
clock gating and clock selection through the syscon handle, the BRG
(baud-rate) register write, the CFG and CTL configuration writes, and the
NVIC interrupt unmask. -/
inductive UsartEvent where
  | enableClock
  | selectClock
  | writeBrg (v : Nat)
  | writeCfg
  | writeCtl
  | disableClock
  | nvicUnmask
  deriving DecidableEq

/-- Recognizer for writes to the USART peripheral's own registers
(BRG, CFG, CTL); clock gating and clock selection are syscon-side. -/
def UsartEvent.isOwnRegWrite : UsartEvent → Bool
  | .writeBrg _ => true
  | .writeCfg => true
  | .writeCtl => true
  | _ => false

/-- Recognizer for the clock-gate-on event. -/
def UsartEvent.isClockEnable : UsartEvent → Bool
  | .enableClock => true
  | _ => false

/-- Configuration word established in CFG by `USART::enable`. The bit
encoding lives in the external pac crate and is out of scope (spec section 1);
only the identity of the register written matters to the claims. -/
def USART_CFG_INIT : Nat := 1

/-- Control word established in CTL by `USART::enable`; bit encoding out of
scope as for `USART_CFG_INIT`. -/
def USART_CTL_INIT : Nat := 0

/-- USART-related register state acted on by `UsartEvent` traces. -/
structure UsartRegs where
  clockOn : Bool
  brg : Nat
  cfg : Nat
  ctl : Nat
  deriving DecidableEq

/-- Effect of one USART hardware event on the register state. -/
def UsartEvent.apply : UsartEvent → UsartRegs → UsartRegs
  | .enableClock, r => { r with clockOn := true }
  | .selectClock, r => r
  | .writeBrg v, r => { r with brg := v }
  | .writeCfg, r => { r with cfg := USART_CFG_INIT }
  | .writeCtl, r => { r with ctl := USART_CTL_INIT }
  | .disableClock, r => { r with clockOn := false }
  | .nvicUnmask, r => r

/-- Run a trace of USART hardware events left to right on register state. -/
def applyUsartEvents (es : List UsartEvent) (r : UsartRegs) : UsartRegs :=
  es.foldl (fun r e => e.apply r) r

/-- Interface to a USART peripheral (`struct USART<UsartX, State>` in
src/src/usart.rs): the raw peripheral is modelled as an opaque numeric
token; the `_state` marker is mirrored by the type index. -/
structure USART (s : InitState) where
  usart : Nat

/-- Translation of `USART::new`: wrap the raw peripheral in a Disabled
handle. -/
def USART.new (usart : Nat) : USART .Disabled :=
  ⟨usart⟩

/-- Translation of `USART::enable` (defined on `USART<Disabled>` only):
enable the clock, select the peripheral clock, write the baud-rate divisor
`psc` (the value of `clock.get_psc()`) to BRG, then write CFG and CTL.
The pin-assignment arguments are compile-time tokens with no hardware
effect here and are omitted. -/
def USART.enable (u : USART .Disabled) (psc : Nat) :
    USART .Enabled × List UsartEvent :=
  (⟨u.usart⟩,
   [.enableClock, .selectClock, .writeBrg psc, .writeCfg, .writeCtl])

/-- Translation of `USART::disable` (defined on `USART<Enabled>` only):
disable the clock, touching no USART register. -/
def USART.disable (u : USART .Enabled) : USART .Disabled × List UsartEvent :=
  (⟨u.usart⟩, [.disableClock])

/-- Translation of `USART::free` (defined for every `State`): return the raw
peripheral stored at construction. -/
def USART.free {s : InitState} (u : USART s) : Nat :=
  u.usart

/-- Typestate of a USART handle, read off its type index. -/
def USART.stateOf {s : InitState} (_ : USART s) : InitState :=
  s

/-- Translation of `USART::enable_interrupts` (defined on `USART<Enabled>`
only): unmask the peripheral's interrupt in the NVIC. -/
def USART.enableInterrupts (_ : USART .Enabled) : List UsartEvent :=
  [.nvicUnmask]

/-- USART receiver (`struct Receiver`), borrowing an Enabled USART. -/
structure Receiver where
  usart : Nat

/-- USART transmitter (`struct Transmitter`), borrowing an Enabled USART. -/
structure Transmitter where
  usart : Nat

/-- Translation of `USART::rx` (defined on `USART<Enabled>` only). -/
def USART.rx (u : USART .Enabled) : Receiver :=
  ⟨u.usart⟩

/-- Translation of `USART::tx` (defined on `USART<Enabled>` only). -/
def USART.tx (u : USART .Enabled) : Transmitter :=
  ⟨u.usart⟩

/-- Error of the `nb` crate: either the non-fatal WouldBlock condition or a
fatal error of type `E`. -/
inductive NbError (E : Type) where
  | wouldBlock
  | other (e : E)
  deriving DecidableEq

/-- Result of a non-blocking operation (`nb::Result<A, E>`). -/
inductive NbResult (E A : Type) where
  | ok (a : A)
  | error (e : NbError E)
  deriving DecidableEq

/-- USART STAT register fields read by the serial implementations. -/
structure UsartStat where
  rxrdy : Bool
  rxbrk : Bool
  overrunint : Bool
  txrdy : Bool
  txidle : Bool
  deriving DecidableEq

/-- USART RXDATSTAT register: received data (up to 9 bits) together with its
per-character status flags, read all at once. -/
structure RxDatStat where
  rxdat : Nat
  framerr : Bool
  parityerr : Bool
  rxnoise : Bool
  deriving DecidableEq

/-- USART hardware state visible to the serial read/write implementations. -/
structure UsartHw where
  stat : UsartStat
  rxdatstat : RxDatStat
  txdat : Nat
  deriving DecidableEq

/-- A USART error (`enum Error` in src/src/usart.rs). -/
inductive UsartError where
  | Framing
  | Noise
  | Overrun
  | Parity
  deriving DecidableEq

/-- Translation of `<Receiver as Read<u8>>::read`. The receiver's borrowed
register block is the explicit `hw` argument. The overrun check is compiled
in for this crate (feature `82x`). `rxdat().bits()` is a `u16` cast to `u8`,
hence the truncation modulo 256. -/
def Receiver.read (hw : UsartHw) : NbResult UsartError Nat :=
  if hw.stat.rxbrk then .error .wouldBlock
  else if hw.stat.overrunint then .error (.other .Overrun)
  else if hw.stat.rxrdy then
    if hw.rxdatstat.framerr then .error (.other .Framing)
    else if hw.rxdatstat.parityerr then .error (.other .Parity)
    else if hw.rxdatstat.rxnoise then .error (.other .Noise)
    else .ok (hw.rxdatstat.rxdat % 256)
  else .error .wouldBlock

/-- Translation of `<Transmitter as Write<u8>>::write`. The error type is
`Void`, modelled by `Empty`. `word` ranges over the `u8` domain; the write of
`word as u16` to TXDAT is value-preserving, recorded modulo 256 to embed the
`u8` domain. Returns the updated hardware state and the result. -/
def Transmitter.write (hw : UsartHw) (word : Nat) :
    UsartHw × NbResult Empty Unit :=
  if hw.stat.txrdy = false then (hw, .error .wouldBlock)
  else ({ hw with txdat := word % 256 }, .ok ())

/-- Translation of `<Transmitter as Write<u8>>::flush`: WouldBlock while the
transmitter is not idle. -/
def Transmitter.flush (hw : UsartHw) : NbResult Empty Unit :=
  if hw.stat.txidle = false then .error .wouldBlock
  else .ok ()

/-- Helper: in the trace emitted by `DMA::enable`, table-base writes precede
the master-enable write. -/
theorem dmaEnableTracePrecede (v : Nat) :
    eventsPrecede DmaEvent.isSrambaseWrite DmaEvent.isCtrlEnableWrite
      [DmaEvent.enableClock, DmaEvent.writeSrambase v,
        DmaEvent.writeCtrlEnable] := by
  intro i j hi hj
  fin_cases i <;> fin_cases j <;>
    first
      | exact Bool.noConfusion hi
      | exact Bool.noConfusion hj
      | exact Nat.lt_of_sub_eq_succ rfl

/-- C1: for every Disabled DMA controller, `DMA::enable` performs its
hardware side effects in the fixed order clock-gate-on, table-base register
write of `srambase`, master-enable write, and finally transitions the owned
channel set to Enabled; in particular every table-base write in the trace
strictly precedes every master-enable write. -/
theorem dma_enable_effect_order (d : DMA .Disabled) :
    (d.enable).2 = [DmaEvent.enableClock, DmaEvent.writeSrambase d.srambase,
        DmaEvent.writeCtrlEnable]
      ∧ (d.enable).1.channels = d.channels.enable
      ∧ eventsPrecede DmaEvent.isSrambaseWrite DmaEvent.isCtrlEnableWrite
          (d.enable).2 :=
  ⟨rfl, rfl, dmaEnableTracePrecede d.srambase⟩

/-- C2: for every Enabled DMA controller, `DMA::disable` emits exactly the
clock-gate-off event: it writes nothing to the table-base register, carries
`srambase` over unchanged into the returned Disabled handle, transitions the
channel set to Disabled, and on any register state only clears the clock
gate, leaving `srambase` and the enable bit as they were. -/
theorem dma_disable_frame (d : DMA .Enabled) :
    (d.disable).2 = [DmaEvent.disableClock]
      ∧ srambaseWrites (d.disable).2 = []
      ∧ (d.disable).1.srambase = d.srambase
      ∧ (d.disable).1.dma = d.dma
      ∧ (d.disable).1.channels = d.channels.disable
      ∧ ∀ r : DmaRegs,
          applyDmaEvents (d.disable).2 r = { r with clockOn := false } :=
  ⟨rfl, rfl, rfl, rfl, rfl, fun _ => rfl⟩

/-- C3: starting from `DMA::new p`, the sequence enable, disable, enable
writes the table-base register once per enable, both times with the address
computed once in `DMA::new`; the intermediate disabled controller still
stores that same address and every one of its channels is Disabled. -/
theorem dma_enable_disable_enable_rebind (p : Nat) :
    srambaseWrites ((DMA.new p).enable).2 = [DESCRIPTORS_ADDR]
      ∧ srambaseWrites (((((DMA.new p).enable).1).disable).1.enable).2 =
          [DESCRIPTORS_ADDR]
      ∧ ((((DMA.new p).enable).1).disable).1.srambase = (DMA.new p).srambase
      ∧ ((((DMA.new p).enable).1).disable).1.channels.allState
          InitState.Disabled = true :=
  ⟨rfl, rfl, rfl, rfl⟩

/-- C4: `free` is available in every typestate and returns exactly the raw
peripheral stored at construction, across any sequence of enable/disable
transitions, for both the DMA controller and the USART. -/
theorem free_returns_raw_peripheral (p u psc : Nat) :
    (DMA.new p).free = p
      ∧ (((DMA.new p).enable).1).free = p
      ∧ (((((DMA.new p).enable).1).disable).1).free = p
      ∧ (USART.new u).free = u
      ∧ (((USART.new u).enable psc).1).free = u
      ∧ (((((USART.new u).enable psc).1).disable).1).free = u :=
  ⟨rfl, rfl, rfl, rfl, rfl, rfl⟩

/-- C5: every freshly constructed handle is in the Disabled typestate
(`DMA::new` and `USART::new` both return Disabled-indexed handles, with every
DMA channel Disabled), while the Enabled-only operations `DMA::disable`,
`USART::disable`, `USART::rx`, `USART::tx` and `USART::enable_interrupts`
take an Enabled-indexed handle, exactly as the Rust impl blocks restrict
them; so none of them is applicable to a fresh handle. -/
theorem new_handles_are_disabled (p u : Nat) :
    (DMA.new p).stateOf = InitState.Disabled
      ∧ (USART.new u).stateOf = InitState.Disabled
      ∧ (DMA.new p).channels.allState InitState.Disabled = true
      ∧ (∀ d : DMA .Enabled, ((d.disable).1).stateOf = InitState.Disabled)
      ∧ (∀ v : USART .Enabled, ((v.disable).1).stateOf = InitState.Disabled)
      ∧ (∀ v : USART .Enabled, (v.rx).usart = v.usart
          ∧ (v.tx).usart = v.usart
          ∧ v.enableInterrupts = [UsartEvent.nvicUnmask]) :=
  ⟨rfl, rfl, rfl, fun _ => rfl, fun _ => rfl,
    fun _ => ⟨rfl, rfl, rfl⟩⟩

/-- Helper: in the trace emitted by `USART::enable`, the clock-gate-on event
precedes every write to the USART's own registers. -/
theorem usartEnableTracePrecede (psc : Nat) :
    eventsPrecede UsartEvent.isClockEnable UsartEvent.isOwnRegWrite
      [UsartEvent.enableClock, UsartEvent.selectClock, UsartEvent.writeBrg psc,
        UsartEvent.writeCfg, UsartEvent.writeCtl] := by
  intro i j hi hj
  fin_cases i <;> fin_cases j <;>
    first
      | exact Bool.noConfusion hi
      | exact Bool.noConfusion hj
      | exact Nat.lt_of_sub_eq_succ rfl

/-- C6: for every Disabled USART, `USART::enable` emits clock-gate-on first,
then the clock selection, then the BRG baud-rate write and the CFG and CTL
configuration writes; every write to the USART's own registers strictly
follows the clock-gate-on, and the returned handle is Enabled. -/
theorem usart_enable_clock_first (u : USART .Disabled) (psc : Nat) :
    (u.enable psc).2 = [UsartEvent.enableClock, UsartEvent.selectClock,
        UsartEvent.writeBrg psc, UsartEvent.writeCfg, UsartEvent.writeCtl]
      ∧ eventsPrecede UsartEvent.isClockEnable UsartEvent.isOwnRegWrite
          (u.enable psc).2
      ∧ ((u.enable psc).1).stateOf = InitState.Enabled :=
  ⟨rfl, usartEnableTracePrecede psc, rfl⟩

/-- C7: `Transmitter::write` returns WouldBlock and leaves the hardware state
untouched when the TXRDY status bit is clear; when TXRDY is set it writes the
given word to TXDAT and returns Ok; and it never returns a fatal error (its
error type `Void` is uninhabited, so the result is always WouldBlock or Ok). -/
theorem transmitter_write_spec (hw : UsartHw) (word : Nat)
    (hword : word < 256) :
    (hw.stat.txrdy = false →
        Transmitter.write hw word = (hw, .error .wouldBlock))
      ∧ (hw.stat.txrdy = true →
        Transmitter.write hw word = ({ hw with txdat := word }, .ok ()))
      ∧ ((Transmitter.write hw word).2 = .error .wouldBlock
          ∨ (Transmitter.write hw word).2 = .ok ()) := by
  refine ⟨?_, ?_, ?_⟩
  · intro ht
    simp [Transmitter.write, ht]
  · intro ht
    simp [Transmitter.write, ht, Nat.mod_eq_of_lt hword]
  · by_cases ht : hw.stat.txrdy <;> simp [Transmitter.write, ht]

/-- Concrete USART hardware state with the transmitter ready. -/
def hwTxReady : UsartHw :=
  { stat := { rxrdy := false, rxbrk := false, overrunint := false,
              txrdy := true, txidle := true }
    rxdatstat := { rxdat := 0, framerr := false, parityerr := false,
                   rxnoise := false }
    txdat := 0 }

/-- Concrete USART hardware state with the transmitter busy. -/
def hwTxBusy : UsartHw :=
  { hwTxReady with stat := { hwTxReady.stat with txrdy := false } }

/-- Witness for C7 at concrete inputs: busy hardware yields WouldBlock with
the state unchanged, ready hardware accepts the byte 65. -/
theorem transmitter_write_spec_witness :
    Transmitter.write hwTxBusy 65 = (hwTxBusy, .error .wouldBlock)
      ∧ Transmitter.write hwTxReady 65 =
          ({ hwTxReady with txdat := 65 }, .ok ()) :=
  ⟨(transmitter_write_spec hwTxBusy 65 (by decide)).1 rfl,
    (transmitter_write_spec hwTxReady 65 (by decide)).2.1 rfl⟩

/-- DMA controller values reachable through the public API: constructed by
`DMA::new` and transformed by `DMA::enable` / `DMA::disable`. -/
inductive DmaReachable : (s : InitState) → DMA s → Prop where
  | new (p : Nat) : DmaReachable .Disabled (DMA.new p)
  | enable {d : DMA .Disabled} :
      DmaReachable .Disabled d → DmaReachable .Enabled (d.enable).1
  | disable {d : DMA .Enabled} :
      DmaReachable .Enabled d → DmaReachable .Disabled (d.disable).1

/-- Helper: the freshly built channel set has every channel Disabled. -/
theorem channelsNewAllDisabled (n : Nat) :
    (Channels.new n).allState InitState.Disabled = true := by
  simp [Channels.new, Channels.allState, List.all_eq_true]

/-- Helper: after enabling, every channel of the set is Enabled. -/
theorem channelsEnableAllEnabled (c : Channels .Disabled) :
    (c.enable).allState InitState.Enabled = true := by
  simp [Channels.enable, Channels.allState, List.all_eq_true]

/-- Helper: after disabling, every channel of the set is Disabled. -/
theorem channelsDisableAllDisabled (c : Channels .Enabled) :
    (c.disable).allState InitState.Disabled = true := by
  simp [Channels.disable, Channels.allState, List.all_eq_true]

/-- C8: the channel set's typestate always equals the DMA controller's own:
`DMA::enable` returns a controller whose channel set is the enabled old set,
`DMA::disable` one whose channel set is the disabled old set, and on every
controller reachable through the API every channel's state equals the
controller's typestate index. -/
theorem dma_channels_track_controller_state :
    (∀ d : DMA .Disabled, ((d.enable).1).channels = d.channels.enable)
      ∧ (∀ d : DMA .Enabled, ((d.disable).1).channels = d.channels.disable)
      ∧ ∀ (s : InitState) (d : DMA s), DmaReachable s d →
          d.channels.allState s = true := by
  refine ⟨fun _ => rfl, fun _ => rfl, ?_⟩
  intro s d h
  induction h with
  | new p => exact channelsNewAllDisabled NUM_DMA_CHANNELS
  | enable _ _ => exact channelsEnableAllEnabled _
  | disable _ _ => exact channelsDisableAllDisabled _

/-- Witness for C8 at a concrete reachable controller: after `DMA::new 0`
followed by `enable`, every channel is Enabled. -/
theorem dma_channels_track_controller_state_witness :
    (((DMA.new 0).enable).1).channels.allState InitState.Enabled = true :=
  dma_channels_track_controller_state.2.2 InitState.Enabled
    ((DMA.new 0).enable).1 ((DmaReachable.new 0).enable)

/-- Concrete USART hardware state with the overrun-interrupt flag set while a
clean character is ready and no break is detected. -/
def hwOverrun : UsartHw :=
  { stat := { rxrdy := true, rxbrk := false, overrunint := true,
              txrdy := false, txidle := false }
    rxdatstat := { rxdat := 65, framerr := false, parityerr := false,
                   rxnoise := false }
    txdat := 0 }

/-- C9 counterexample: with RXBRK clear, RXRDY set and no framing, parity or
noise error flagged, `Receiver::read` nevertheless returns the fatal Overrun
error rather than Ok, because the overrun check (compiled in for this crate)
runs before the data-ready path. -/
theorem receiver_read_overrun_counterexample :
    hwOverrun.stat.rxbrk = false
      ∧ hwOverrun.stat.rxrdy = true
      ∧ hwOverrun.rxdatstat.framerr = false
      ∧ hwOverrun.rxdatstat.parityerr = false
      ∧ hwOverrun.rxdatstat.rxnoise = false
      ∧ Receiver.read hwOverrun =
          NbResult.error (NbError.other UsartError.Overrun) := by
  decide

/-- C9 (amended): `Receiver::read` returns Ok with the received byte exactly
when RXBRK is clear, the overrun-interrupt flag is clear, RXRDY is set, and
none of the framing, parity or noise bits is set; it returns WouldBlock when
RXBRK is set (even if data is ready) or when RXRDY is clear with no overrun
pending; with RXBRK clear and overrun set it returns the Overrun error; and
simultaneous error bits are reported with precedence framing, then parity,
then noise. -/
theorem receiver_read_spec (hw : UsartHw) :
    (hw.stat.rxbrk = true → Receiver.read hw = .error .wouldBlock)
      ∧ (hw.stat.rxbrk = false → hw.stat.overrunint = true →
          Receiver.read hw = .error (.other .Overrun))
      ∧ (hw.stat.rxbrk = false → hw.stat.overrunint = false →
          hw.stat.rxrdy = false → Receiver.read hw = .error .wouldBlock)
      ∧ (hw.stat.rxbrk = false → hw.stat.overrunint = false →
          hw.stat.rxrdy = true → hw.rxdatstat.framerr = true →
          Receiver.read hw = .error (.other .Framing))
      ∧ (hw.stat.rxbrk = false → hw.stat.overrunint = false →
          hw.stat.rxrdy = true → hw.rxdatstat.framerr = false →
          hw.rxdatstat.parityerr = true →
          Receiver.read hw = .error (.other .Parity))
      ∧ (hw.stat.rxbrk = false → hw.stat.overrunint = false →
          hw.stat.rxrdy = true → hw.rxdatstat.framerr = false →
          hw.rxdatstat.parityerr = false → hw.rxdatstat.rxnoise = true →
          Receiver.read hw = .error (.other .Noise))
      ∧ (hw.stat.rxbrk = false → hw.stat.overrunint = false →
          hw.stat.rxrdy = true → hw.rxdatstat.framerr = false →
          hw.rxdatstat.parityerr = false → hw.rxdatstat.rxnoise = false →
          Receiver.read hw = .ok (hw.rxdatstat.rxdat % 256))
      ∧ ((∃ b, Receiver.read hw = .ok b) ↔
          (hw.stat.rxbrk = false ∧ hw.stat.overrunint = false
            ∧ hw.stat.rxrdy = true ∧ hw.rxdatstat.framerr = false
            ∧ hw.rxdatstat.parityerr = false
            ∧ hw.rxdatstat.rxnoise = false)) := by
  rcases hw with ⟨⟨rxrdy, rxbrk, ovr, txr, txi⟩, ⟨rxdat, fe, pe, ne⟩, td⟩
  cases rxbrk <;> cases ovr <;> cases rxrdy <;> cases fe <;> cases pe <;>
    cases ne <;> simp [Receiver.read]

/-- Concrete USART hardware state with a clean character (0x141) ready. -/
def hwRxClean : UsartHw :=
  { stat := { rxrdy := true, rxbrk := false, overrunint := false,
              txrdy := false, txidle := false }
    rxdatstat := { rxdat := 321, framerr := false, parityerr := false,
                   rxnoise := false }
    txdat := 0 }

/-- Witness for C9 at a concrete input: a clean ready character is returned
Ok, truncated from 9 bits to the configured 8 (321 mod 256 = 65). -/
theorem receiver_read_spec_witness :
    Receiver.read hwRxClean = NbResult.ok 65 :=
  (receiver_read_spec hwRxClean).2.2.2.2.2.2.1 rfl rfl rfl rfl rfl rfl

/-- C10: `USART::disable` emits exactly the clock-gate-off event: it writes
none of the BRG, CFG, CTL registers, so on any register state only the clock
gate changes and the configuration established by `enable` persists; the raw
peripheral is carried over and the returned handle is Disabled. -/
theorem usart_disable_frame (u : USART .Enabled) :
    (u.disable).2 = [UsartEvent.disableClock]
      ∧ (∀ e ∈ (u.disable).2, UsartEvent.isOwnRegWrite e = false)
      ∧ ((u.disable).1).usart = u.usart
      ∧ ((u.disable).1).stateOf = InitState.Disabled
      ∧ ∀ r : UsartRegs,
          applyUsartEvents (u.disable).2 r = { r with clockOn := false } := by
  refine ⟨rfl, ?_, rfl, rfl, fun _ => rfl⟩
  intro e he
  simp only [USART.disable, List.mem_singleton] at he
  subst he
  rfl
